import Mathlib

/-!
Verification of the AgenticFlow execution engine against its specification.

The definitions below are a shallow embedding of the Python sources:
  * `app/tools/calculator.py`        — `CalculatorTool.run`, `_evaluate_expression`
  * `app/memory/short_term.py`       — `ShortTermMemory.get_recent`
  * `app/agents/calculator_agent.py` — `CalculatorAgent.run`
  * `app/agents/code_agent.py`       — `CodeAgent.run`, `_run_code_with_namespace`,
                                       `_extract_code_from_message`, `_fix_code_with_llm`
  * `app/agents/master_agent.py`     — `_route_to_tool`, the per-tool nodes,
                                       `_next_step_node`, `_format_response_node`,
                                       `_task_planner_node`

Python strings are Lean `String`s, Python ints are `ℤ`, and Python floats are
modelled as exact fractions (`PyFloat`, an integer numerator/denominator pair;
every numeric literal and arithmetic result the claims exercise is exactly
representable in binary floating point, so the exact model agrees with the
float semantics on them).  Python `exec` and the
language-model completion are external effects and are modelled as explicit
function parameters (oracles); everything written in the repository itself is
translated directly.
-/

namespace AgenticFlow

/-! ### String primitives mirroring the Python built-ins used by the sources -/

/-- The whitespace class of Python `str.strip` / regex `\s` (ASCII part). -/
def isWsChar (c : Char) : Bool :=
  c = ' ' || c = '\t' || c = '\n' || c = '\r' || c = '\x0b' || c = '\x0c'

def pyStripList (s : List Char) : List Char :=
  ((s.dropWhile isWsChar).reverse.dropWhile isWsChar).reverse

/-- Python `str.strip()` (no argument: strip whitespace on both sides). -/
def pyStrip (s : String) : String := String.mk (pyStripList s.data)

/-- Python `str.rstrip(c)` for a single-character strip set. -/
def rstripChar (c : Char) (s : String) : String :=
  String.mk ((s.data.reverse.dropWhile (fun d => d = c)).reverse)

/-- Substring test on character lists (Python `pat in s`). -/
def isSubstrList (pat : List Char) : List Char → Bool
  | [] => pat.isEmpty
  | c :: cs => pat.isPrefixOf (c :: cs) || isSubstrList pat cs

/-- Python `pat in s` for strings. -/
def strContains (s pat : String) : Bool := isSubstrList pat.data s.data

def findSubAux (pat : List Char) : List Char → ℕ → Option ℕ
  | [], i => if pat.isEmpty then some i else none
  | c :: cs, i => if pat.isPrefixOf (c :: cs) then some i else findSubAux pat cs (i + 1)

/-- Python `s.find(pat)`, as an `Option` instead of `-1`. -/
def findSub (pat s : String) : Option ℕ := findSubAux pat.data s.data 0

/-- Python `sep.join(parts)`. -/
def joinSep (sep : String) : List String → String
  | [] => ""
  | [x] => x
  | x :: y :: xs => x ++ sep ++ joinSep sep (y :: xs)

/-- Python `s.startswith(pre)`. -/
def strStartsWith (s pre : String) : Bool := pre.data.isPrefixOf s.data

/-- Python `s.endswith(suf)`. -/
def strEndsWith (s suf : String) : Bool := suf.data.isSuffixOf s.data

/-- Python `s.lower()` (ASCII case mapping suffices for the sources). -/
def strToLower (s : String) : String := String.mk (s.data.map Char.toLower)

def splitNlAux : List Char → List Char → List String
  | acc, [] => [String.mk acc.reverse]
  | acc, c :: cs =>
    if c = '\n' then String.mk acc.reverse :: splitNlAux [] cs
    else splitNlAux (c :: acc) cs

/-- Python `s.split('\n')`. -/
def splitNl (s : String) : List String := splitNlAux [] s.data

/-- Try to consume `pat` at the head of the text, case-insensitively
(regex `re.IGNORECASE` literal match); returns the rest on success. -/
def dropCaseInsHead : List Char → List Char → Option (List Char)
  | [], s => some s
  | _ :: _, [] => none
  | p :: ps, c :: cs => if c.toLower = p.toLower then dropCaseInsHead ps cs else none

/-- Try to consume `pat` at the head of the text, exactly. -/
def dropExactHead : List Char → List Char → Option (List Char)
  | [], s => some s
  | _ :: _, [] => none
  | p :: ps, c :: cs => if c = p then dropExactHead ps cs else none

/-- Left-to-right, non-overlapping replace-all driven by a head matcher —
the behaviour of `re.sub` with a literal pattern (fuel = text length). -/
def replaceAux (matcher : List Char → Option (List Char)) (rep : List Char) :
    ℕ → List Char → List Char
  | 0, s => s
  | _ + 1, [] => []
  | n + 1, c :: cs =>
    match matcher (c :: cs) with
    | some rest => rep ++ replaceAux matcher rep n rest
    | none => c :: replaceAux matcher rep n cs

/-- `re.sub(pat, rep, s, flags=re.IGNORECASE)` for a literal word `pat`. -/
def replaceCI (pat rep s : String) : String :=
  String.mk (replaceAux (dropCaseInsHead pat.data) rep.data s.data.length s.data)

/-- `re.sub(pat, rep, s)` / `str.replace` for a literal `pat` (case-sensitive). -/
def replaceSub (pat rep s : String) : String :=
  String.mk (replaceAux (dropExactHead pat.data) rep.data s.data.length s.data)

/-- Head matcher for the pattern `w1\s+w2` (word, one-or-more whitespace, word). -/
def dropGapHead (w1 w2 : List Char) (s : List Char) : Option (List Char) :=
  match dropExactHead w1 s with
  | none => none
  | some r1 =>
    if (r1.takeWhile isWsChar).isEmpty then none
    else dropExactHead w2 (r1.dropWhile isWsChar)

/-- `re.sub(r'w1\s+w2', rep, s)` as used for `previous\s+result` / `last\s+result`. -/
def replaceGap (w1 w2 rep s : String) : String :=
  String.mk (replaceAux (dropGapHead w1.data w2.data) rep.data s.data.length s.data)

def takeDigits (s : List Char) : List Char × List Char :=
  (s.takeWhile Char.isDigit, s.dropWhile Char.isDigit)

/-- The body of a numeric-token match: `\d+\.?\d*` starting at a digit. -/
def numCore (s : List Char) : List Char :=
  let p := takeDigits s
  match p.2 with
  | '.' :: r2 => p.1 ++ '.' :: (takeDigits r2).1
  | _ => p.1

/-- Match the regex `[-]?\d+\.?\d*` anchored at the head of the text. -/
def numMatchHead : List Char → Option (List Char)
  | '-' :: c :: cs => if c.isDigit then some ('-' :: numCore (c :: cs)) else none
  | c :: cs => if c.isDigit then some (numCore (c :: cs)) else none
  | [] => none

/-- `re.search(r'[-]?\d+\.?\d*', s)`: leftmost match of the numeric-token regex. -/
def searchNumToken : List Char → Option (List Char)
  | [] => none
  | c :: cs =>
    match numMatchHead (c :: cs) with
    | some t => some t
    | none => searchNumToken cs

/-! ### `ShortTermMemory` (app/memory/short_term.py) -/

structure ShortTermMemory where
  history : List (String × String)

/-- One turn of `ShortTermMemory.get_recent`'s formatting loop
(including the `Document Summary:` special case; its `find` returning `-1`
is the dead `else` branch of the source, kept as the `none` arm). -/
def formatTurn (turn : String × String) : List String :=
  let aiClean := pyStrip turn.2
  if strContains aiClean "Document Summary:" then
    match findSub "Document Summary:" aiClean with
    | some i =>
      let content := pyStrip (replaceSub "Document Summary:" "" (String.mk (aiClean.data.drop i)))
      ["User: " ++ turn.1, "AI: Document Summary - " ++ content]
    | none => ["User: " ++ turn.1, "AI: " ++ aiClean]
  else ["User: " ++ turn.1, "AI: " ++ aiClean]

/-- `ShortTermMemory.get_recent(n)`. -/
def getRecent (mem : ShortTermMemory) (n : ℕ) : String :=
  if mem.history.isEmpty then ""
  else
    let recent :=
      if mem.history.length > n then mem.history.drop (mem.history.length - n)
      else mem.history
    joinSep "\n" (recent.foldr (fun t acc => formatTurn t ++ acc) [])

/-! ### Restricted arithmetic evaluation (the `eval` call of `CalculatorTool`)

`eval(expression, {"__builtins__": {}}, allowed_names)` is the Python
evaluator applied to an arithmetic expression.  It is modelled as an exact
tokenizer/recursive-descent evaluator over `ℤ`/`PyFloat` values with Python's
numeric promotion (`int ⊕ int = int`, true division always yields a float).
The `math`-module bindings of `allowed_names` denote irrational-valued
functions outside the rational model and no claim exercises them, so in the
model every identifier lookup fails (Python `NameError`); exponent literals
and operators beyond `+ - * / ( )` are likewise unexercised and rejected. -/

/-- An exact binary-representable float value, kept as an unreduced fraction
`num / den` (`den` is nonzero by construction; its sign may be negative after
a division — the formatting reads the value's sign from `num * den`). -/
structure PyFloat where
  num : ℤ
  den : ℤ
deriving DecidableEq

def PyFloat.addF (a b : PyFloat) : PyFloat := ⟨a.num * b.den + b.num * a.den, a.den * b.den⟩

def PyFloat.subF (a b : PyFloat) : PyFloat := ⟨a.num * b.den - b.num * a.den, a.den * b.den⟩

def PyFloat.mulF (a b : PyFloat) : PyFloat := ⟨a.num * b.num, a.den * b.den⟩

def PyFloat.divF (a b : PyFloat) : PyFloat := ⟨a.num * b.den, a.den * b.num⟩

def PyFloat.negF (a : PyFloat) : PyFloat := ⟨-a.num, a.den⟩

/-- Value-level zero test (`den` is never zero). -/
def PyFloat.isZero (a : PyFloat) : Bool := a.num = 0

inductive PyNum where
  | int : ℤ → PyNum
  | float : PyFloat → PyNum
deriving DecidableEq

def PyNum.toF : PyNum → PyFloat
  | .int i => ⟨i, 1⟩
  | .float f => f

def pyAdd : PyNum → PyNum → PyNum
  | .int a, .int b => .int (a + b)
  | a, b => .float (a.toF.addF b.toF)

def pySub : PyNum → PyNum → PyNum
  | .int a, .int b => .int (a - b)
  | a, b => .float (a.toF.subF b.toF)

def pyMul : PyNum → PyNum → PyNum
  | .int a, .int b => .int (a * b)
  | a, b => .float (a.toF.mulF b.toF)

/-- Python true division: always a float; raises `ZeroDivisionError` on 0. -/
def pyDiv (a b : PyNum) : Except String PyNum :=
  if b.toF.isZero then
    .error (match b with
            | .int _ => "division by zero"
            | .float _ => "float division by zero")
  else .ok (.float (a.toF.divF b.toF))

def pyNeg : PyNum → PyNum
  | .int a => .int (-a)
  | .float f => .float f.negF

inductive Tok where
  | num : PyNum → Tok
  | ident : String → Tok
  | plus : Tok
  | minus : Tok
  | star : Tok
  | slash : Tok
  | lparen : Tok
  | rparen : Tok
deriving DecidableEq

def isIdentStart (c : Char) : Bool := c.isAlpha || c = '_'

def isIdentChar (c : Char) : Bool := c.isAlphanum || c = '_'

def digitsToNat (ds : List Char) : ℕ :=
  ds.foldl (fun a c => 10 * a + (c.toNat - 48)) 0

def mkFloatNum (d1 d2 : List Char) : PyNum :=
  .float ⟨(digitsToNat (d1 ++ d2) : ℤ), ((10 : ℤ) ^ d2.length)⟩

def tokenize : ℕ → List Char → Except String (List Tok)
  | 0, _ => .error "invalid syntax"
  | _ + 1, [] => .ok []
  | n + 1, c :: cs =>
    if isWsChar c then tokenize n cs
    else if c = '+' then (tokenize n cs).map (Tok.plus :: ·)
    else if c = '-' then (tokenize n cs).map (Tok.minus :: ·)
    else if c = '*' then (tokenize n cs).map (Tok.star :: ·)
    else if c = '/' then (tokenize n cs).map (Tok.slash :: ·)
    else if c = '(' then (tokenize n cs).map (Tok.lparen :: ·)
    else if c = ')' then (tokenize n cs).map (Tok.rparen :: ·)
    else if c.isDigit then
      let p := takeDigits (c :: cs)
      match p.2 with
      | '.' :: r2 =>
        let q := takeDigits r2
        match q.2 with
        | d :: _ =>
          if isIdentStart d then .error "invalid decimal literal"
          else (tokenize n q.2).map (Tok.num (mkFloatNum p.1 q.1) :: ·)
        | [] => .ok [Tok.num (mkFloatNum p.1 q.1)]
      | d :: rest =>
        if isIdentStart d then .error "invalid decimal literal"
        else (tokenize n (d :: rest)).map (Tok.num (.int (digitsToNat p.1)) :: ·)
      | [] => .ok [Tok.num (.int (digitsToNat p.1))]
    else if isIdentStart c then
      (tokenize n ((c :: cs).dropWhile isIdentChar)).map
        (Tok.ident (String.mk ((c :: cs).takeWhile isIdentChar)) :: ·)
    else .error "invalid syntax"

mutual

def parseE (fuel : ℕ) (ts : List Tok) : Except String (PyNum × List Tok) :=
  match fuel with
  | 0 => .error "invalid syntax"
  | f + 1 => do
    let r ← parseT f ts
    parseETail f r.1 r.2

def parseETail (fuel : ℕ) (acc : PyNum) (ts : List Tok) : Except String (PyNum × List Tok) :=
  match fuel, ts with
  | 0, _ => .error "invalid syntax"
  | f + 1, Tok.plus :: ts1 => do
    let r ← parseT f ts1
    parseETail f (pyAdd acc r.1) r.2
  | f + 1, Tok.minus :: ts1 => do
    let r ← parseT f ts1
    parseETail f (pySub acc r.1) r.2
  | _ + 1, ts => .ok (acc, ts)

def parseT (fuel : ℕ) (ts : List Tok) : Except String (PyNum × List Tok) :=
  match fuel with
  | 0 => .error "invalid syntax"
  | f + 1 => do
    let r ← parseU f ts
    parseTTail f r.1 r.2

def parseTTail (fuel : ℕ) (acc : PyNum) (ts : List Tok) : Except String (PyNum × List Tok) :=
  match fuel, ts with
  | 0, _ => .error "invalid syntax"
  | f + 1, Tok.star :: ts1 => do
    let r ← parseU f ts1
    parseTTail f (pyMul acc r.1) r.2
  | f + 1, Tok.slash :: ts1 => do
    let r ← parseU f ts1
    let v ← pyDiv acc r.1
    parseTTail f v r.2
  | _ + 1, ts => .ok (acc, ts)

def parseU (fuel : ℕ) (ts : List Tok) : Except String (PyNum × List Tok) :=
  match fuel, ts with
  | 0, _ => .error "invalid syntax"
  | f + 1, Tok.plus :: ts1 => parseU f ts1
  | f + 1, Tok.minus :: ts1 => (parseU f ts1).map (fun r => (pyNeg r.1, r.2))
  | _ + 1, Tok.num v :: ts1 => .ok (v, ts1)
  | _ + 1, Tok.ident n :: _ => .error ("name " ++ n ++ " is not defined")
  | f + 1, Tok.lparen :: ts1 => do
    let r ← parseE f ts1
    match r.2 with
    | Tok.rparen :: ts3 => .ok (r.1, ts3)
    | _ => .error "invalid syntax"
  | _ + 1, _ => .error "invalid syntax"

end

/-- The restricted `eval` of `CalculatorTool._evaluate_expression`. -/
def evalArith (s : String) : Except String PyNum := do
  let ts ← tokenize (s.data.length + 1) s.data
  let r ← parseE (3 * ts.length + 3) ts
  if r.2 = [] then pure r.1 else .error "invalid syntax"

/-! ### Numeric formatting (`f"{result:.6f}".rstrip('0').rstrip('.')`) -/

def digitChar (d : ℕ) : Char := Char.ofNat (48 + d)

def natChars : ℕ → ℕ → List Char
  | 0, _ => []
  | f + 1, n => if n < 10 then [digitChar n] else natChars f (n / 10) ++ [digitChar (n % 10)]

/-- Decimal rendering of a natural number (Python `str` on a non-negative int). -/
def natStr (n : ℕ) : String := String.mk (natChars (n + 1) n)

/-- Decimal rendering of an integer (Python `str(int)`). -/
def intStr (i : ℤ) : String := (if i < 0 then "-" else "") ++ natStr i.natAbs

/-- Round `a / b` (a fraction of naturals) to the nearest integer, ties to
even — the rounding used by Python float formatting. -/
def roundHalfEvenDiv (a b : ℕ) : ℕ :=
  let q := a / b
  let r := a % b
  if 2 * r < b then q
  else if b < 2 * r then q + 1
  else if q % 2 = 0 then q else q + 1

def padSix (s : List Char) : List Char := List.replicate (6 - s.length) '0' ++ s

/-- Python `f"{v:.6f}"`: sign, integer part, dot, exactly six fractional
digits of the correctly rounded decimal rendering. -/
def format6 (f : PyFloat) : String :=
  let scaled := roundHalfEvenDiv (f.num.natAbs * 1000000) f.den.natAbs
  (if f.num * f.den < 0 then "-" else "") ++ natStr (scaled / 1000000) ++ "." ++
    String.mk (padSix (natChars (scaled % 1000000 + 1) (scaled % 1000000)))

/-- `f"{result:.6f}".rstrip('0').rstrip('.')` — the float branch of the
calculator's result formatting. -/
def formatPyFloat (f : PyFloat) : String := rstripChar '.' (rstripChar '0' (format6 f))

/-- The `formatted` value of `_evaluate_expression`: floats go through the
six-decimal rendering with strips, ints through plain `str`. -/
def formatPyNum : PyNum → String
  | .int i => intStr i
  | .float f => formatPyFloat f

/-! ### `CalculatorTool` (app/tools/calculator.py) -/

/-- The normalization prelude of `_evaluate_expression`: `strip()`, removal of
all whitespace (`re.sub(r'\s+', '')`), then the case-insensitive word rewrites
`add → +`, `subtract → -`, `multiply → *`, `divide → /`, in that order. -/
def normalizeExpr (expression : String) : String :=
  let e := pyStrip expression
  let e := String.mk (e.data.filter (fun c => !isWsChar c))
  let e := replaceCI "add" "+" e
  let e := replaceCI "subtract" "-" e
  let e := replaceCI "multiply" "*" e
  replaceCI "divide" "/" e

/-- `CalculatorTool._evaluate_expression`: normalize, evaluate, and render
`"<normalized> = <formatted>"`, catching every evaluation error as
`"Calculator error: <message>"`. -/
def evaluateExpression (expression : String) : String :=
  let e := normalizeExpr expression
  match evalArith e with
  | .ok v => e ++ " = " ++ formatPyNum v
  | .error msg => "Calculator error: " ++ msg

/-- The line filter of `CalculatorTool.run`'s history scan. -/
def lineAccepted (line : String) : Bool :=
  strContains line "AI:" &&
    (strContains line "Calculator Result:" || strContains line "Final Result:" ||
      strContains line "=")

/-- The `for line in reversed(lines)` scan: first accepted line that yields a
numeric token (an accepted line without one is skipped, as in the source). -/
def scanForResult : List String → Option String
  | [] => none
  | line :: rest =>
    if lineAccepted line then
      match searchNumToken line.data with
      | some tok => some (String.mk tok)
      | none => scanForResult rest
    else scanForResult rest

/-- The four substitutions of `CalculatorTool.run`, in source order, on the
lower-cased expression. -/
def substituteResult (prev : String) (exprLower : String) : String :=
  let e := replaceGap "previous" "result" prev exprLower
  let e := replaceGap "last" "result" prev e
  let e := replaceSub "result" prev e
  replaceSub "answer" prev e

def triggersContext (expression : String) : Bool :=
  ["previous", "last", "result", "answer"].any
    (fun w => strContains (strToLower expression) w)

/-- The context-resolution phase of `CalculatorTool.run`: `some substituted`
when the trigger-word check, the memory, the recent transcript, and the line
scan all produce, otherwise `none` (every fall-through of the source evaluates
the original expression). -/
def resolveContextSubstitution (memory : Option ShortTermMemory) (expression : String) :
    Option String :=
  if triggersContext expression then
    match memory with
    | some mem =>
      let recent := getRecent mem 5
      if recent = "" then none
      else
        match scanForResult (splitNl recent).reverse with
        | some prev => some (substituteResult prev (strToLower expression))
        | none => none
    | none => none
  else none

/-- `CalculatorTool.run`. -/
def calculatorToolRun (memory : Option ShortTermMemory) (expression : String) : String :=
  evaluateExpression ((resolveContextSubstitution memory expression).getD expression)

/-! ### `CalculatorAgent` (app/agents/calculator_agent.py) -/

structure ToolResult where
  result : String
  success : Bool
deriving DecidableEq

/-- `CalculatorAgent.run`.  The source wraps the tool call in `try/except`,
but `CalculatorTool.run` catches every evaluation error internally and returns
it as text, so the tool call returns normally and the agent reports
`success = True` for every non-empty expression — the `except` branch of the
source is unreachable for evaluator errors and has no arm in the model. -/
def calculatorAgentRun (memory : Option ShortTermMemory) (expression : String) : ToolResult :=
  if expression = "" then ⟨"Error: No expression provided", false⟩
  else ⟨calculatorToolRun memory expression, true⟩

/-! ### `CodeAgent` (app/agents/code_agent.py)

Python `exec` is an external effect; it is modelled as an explicit function
parameter `ExecFn` mapping the executed code and the incoming namespace to the
(possibly partially) mutated namespace and an outcome: captured output, or one
of the exception classes the source distinguishes (`RecursionError`,
`SyntaxError` — which in Python also catches its subclass `IndentationError` —
or any other exception with its class name and message). -/

/-- A Python value as far as the implicit-result extraction inspects it:
its `str` rendering, whether it is callable, and whether it is an instance of
`(int, float, str, list, dict, tuple, set)`. -/
structure PyVal where
  render : String
  callable : Bool
  primitive : Bool
deriving DecidableEq

/-- The session namespace: an insertion-ordered mapping, as a Python dict. -/
abbrev CodeNamespace := List (String × PyVal)

/-- Dict lookup (first matching key; a dict holds each key once). -/
def lookupNs (x : String) : CodeNamespace → Option PyVal
  | [] => none
  | kv :: rest => if kv.1 = x then some kv.2 else lookupNs x rest

/-- Dict item assignment: update in place, or append preserving insertion order. -/
def dictSet (x : String) (v : PyVal) : CodeNamespace → CodeNamespace
  | [] => [(x, v)]
  | kv :: rest => if kv.1 = x then (x, v) :: rest else kv :: dictSet x v rest

inductive ExecResult where
  | ok : String → ExecResult
  | recursionError : String → ExecResult
  | syntaxError : String → ExecResult
  | otherError : String → String → ExecResult
deriving DecidableEq

abbrev ExecFn := String → CodeNamespace → CodeNamespace × ExecResult

/-- The implicit-result extraction of `_run_code_with_namespace`: first entry
in insertion order whose name has no underscore prefix, is not callable, and
is a primitive/plain container; `""` when none matches (the loop leaves
`result` falsy). -/
def scanNamespace : CodeNamespace → String
  | [] => ""
  | (name, v) :: rest =>
    if !strStartsWith name "_" && !v.callable && v.primitive then
      "Variable \x27" ++ name ++ "\x27 = " ++ v.render
    else scanNamespace rest

/-- Result of one `_run_code_with_namespace` call.  `execd` records whether
the execution primitive (`exec`) actually ran — an observation used to state
the single-retry property; it does not influence any control flow. -/
structure RunOut where
  ns : CodeNamespace
  text : String
  execd : Bool
deriving DecidableEq

/-- `CodeAgent._run_code_with_namespace`. -/
def runCodeWithNamespace (execFn : ExecFn) (ns : CodeNamespace) (code : String) : RunOut :=
  let code := pyStrip code
  if code = "" then ⟨ns, "(No code provided)", false⟩
  else
    match execFn code ns with
    | (ns2, .ok out) =>
      let result := pyStrip out
      let result := if result = "" then scanNamespace ns2 else result
      ⟨ns2, if result = "" then "(Code executed successfully, no output produced)" else result,
        true⟩
    | (ns2, .recursionError m) =>
      ⟨ns2, "Recursion error: " ++ m ++ ". The function may have infinite recursion.", true⟩
    | (ns2, .syntaxError m) => ⟨ns2, "SyntaxError: " ++ m, true⟩
    | (ns2, .otherError cls m) => ⟨ns2, "Error: " ++ cls ++ ": " ++ m, true⟩

/-- Split the text at the first closing fence  three backquotes , returning
the capture before it and the rest after it. -/
def splitAtFence : List Char → Option (List Char × List Char)
  | [] => none
  | '`' :: '`' :: '`' :: rest => some ([], rest)
  | c :: cs => (splitAtFence cs).map (fun p => (c :: p.1, p.2))

/-- Optional literal `python` after the opening fence (regex `(?:python)?`). -/
def dropPython (s : List Char) : List Char :=
  match dropExactHead "python".data s with
  | some r => r
  | none => s

/-- Greedy `\s*\n`: within the maximal whitespace run, consume up to and
including the last newline; fail when the run has no newline. -/
def dropWsThroughLastNl (s : List Char) : Option (List Char) :=
  let ws := s.takeWhile isWsChar
  if ws.contains '\n' then
    some ((ws.reverse.takeWhile (fun c => c ≠ '\n')).reverse ++ s.dropWhile isWsChar)
  else none

/-- The three markdown-fence patterns of `_extract_code_from_message`. -/
inductive FencePat where
  | nlRequired : FencePat
  | wsSkip : FencePat
  | bare : FencePat

def matchFenceOpen (pat : FencePat) : List Char → Option (List Char)
  | '`' :: '`' :: '`' :: rest =>
    match pat with
    | .nlRequired => dropWsThroughLastNl (dropPython rest)
    | .wsSkip => some ((dropPython rest).dropWhile isWsChar)
    | .bare => some rest
  | _ => none

/-- `re.findall` for one fence pattern with a non-greedy `(.*?)` capture:
scan left to right, resume after each complete match. -/
def findFenced (pat : FencePat) : ℕ → List Char → List (List Char)
  | 0, _ => []
  | _ + 1, [] => []
  | n + 1, c :: cs =>
    match matchFenceOpen pat (c :: cs) with
    | some rest =>
      match splitAtFence rest with
      | some (cap, rest2) => cap :: findFenced pat n rest2
      | none => findFenced pat n cs
    | none => findFenced pat n cs

/-- `CodeAgent._extract_code_from_message`. -/
def extractCodeFromMessage (message : String) : String :=
  let m1 := (findFenced .nlRequired (message.data.length + 1) message.data).map
    (fun l => pyStrip (String.mk l))
  if m1 ≠ [] then joinSep "\n\n" m1
  else
    let m2 := (findFenced .wsSkip (message.data.length + 1) message.data).map
      (fun l => pyStrip (String.mk l))
    if m2 ≠ [] then joinSep "\n\n" m2
    else
      let m3 := (findFenced .bare (message.data.length + 1) message.data).map
        (fun l => pyStrip (String.mk l))
      if m3 ≠ [] then joinSep "\n\n" m3
      else pyStrip message

/-- The fix-only prompt of `CodeAgent._fix_code_with_llm`. -/
def fixPrompt (code : String) : String :=
  "You are a Python code fixer. The following Python code has syntax or indentation errors. " ++
    "Fix all issues and return ONLY the corrected code without any explanation, markdown formatting, or additional text.\n\n" ++
    "Broken Code:\n" ++ code ++ "\n\nFixed Code (return only the code):"

/-- `CodeAgent._fix_code_with_llm`; the language model is the oracle `llm`
mapping the prompt to the completion text. -/
def fixCodeWithLLM (llm : String → String) (code : String) : String :=
  let fixed := pyStrip (llm (fixPrompt code))
  let fixed :=
    if strStartsWith fixed "```python" then String.mk (fixed.data.drop 9)
    else if strStartsWith fixed "```" then String.mk (fixed.data.drop 3)
    else fixed
  let fixed :=
    if strEndsWith fixed "```" then String.mk (fixed.data.take (fixed.data.length - 3))
    else fixed
  pyStrip fixed

structure CodeRunResult where
  result : String
  success : Bool
  ns : CodeNamespace
  execCount : ℕ
deriving DecidableEq

def b2n (b : Bool) : ℕ := if b then 1 else 0

/-- The branch logic of `CodeAgent.run` after the first execution (lines
45–64 of the source): `r1` is the first `_run_code_with_namespace` outcome,
`fixedCode` the `_fix_code_with_llm` candidate, and `rerun` performs the
single corrective re-execution against `r1`'s namespace. -/
def codeAgentDecide (rerun : String → RunOut) (fixedCode code : String) (r1 : RunOut) :
    CodeRunResult :=
  if strContains r1.text "SyntaxError" || strContains r1.text "IndentationError" then
    if pyStrip fixedCode ≠ pyStrip code then
      let r2 := rerun fixedCode
      if !strContains r2.text "Error" then
        ⟨"🤖 Auto-fixed syntax. **Result:**\n" ++ r2.text, true, r2.ns,
          b2n r1.execd + b2n r2.execd⟩
      else
        ⟨"**Code Execution Error:** " ++ r2.text ++ " (Auto-fixer failed)", false, r2.ns,
          b2n r1.execd + b2n r2.execd⟩
    else
      ⟨"**Code Execution Error:** " ++ r1.text ++ " (Auto-fixer failed)", false, r1.ns,
        b2n r1.execd⟩
  else if strContains r1.text "Error" then
    ⟨"**Code Execution Error:** " ++ r1.text, false, r1.ns, b2n r1.execd⟩
  else
    ⟨"**Code Execution Result:**\n" ++ r1.text, true, r1.ns, b2n r1.execd⟩

/-- `CodeAgent.run`.  `ns` is the incoming `session_namespace`; the returned
`ns` is its state after the call.  `execCount` sums the `execd` observations
of the at-most-two `_run_code_with_namespace` calls. -/
def codeAgentRun (execFn : ExecFn) (llm : String → String) (ns : CodeNamespace)
    (codeInput : String) : CodeRunResult :=
  if codeInput = "" then ⟨"Error: No code provided", false, ns, 0⟩
  else
    let code := extractCodeFromMessage codeInput
    let r1 := runCodeWithNamespace execFn ns code
    codeAgentDecide (runCodeWithNamespace execFn r1.ns) (fixCodeWithLLM llm code) code r1

/-- A session of successive `CodeAgent.run` invocations on one agent instance:
`session_namespace` is initialised once in `__init__` (to the empty dict) and
threaded through every invocation. -/
def codeAgentSession (execFn : ExecFn) (llm : String → String) :
    CodeNamespace → List String → CodeNamespace
  | ns, [] => ns
  | ns, c :: cs => codeAgentSession execFn llm (codeAgentRun execFn llm ns c).ns cs

/-! ### `MasterAgent` execution engine (app/agents/master_agent.py)

The five tool nodes share one update shape (written out identically in each
`_*_node`): take the sub-agent's `(result, success)`, write them into the
current step, append the result to `results`, and append a failure record when
`success` is false.  The sub-agent outcomes of a dispatched plan are supplied
by an oracle `ℕ → ToolResult` giving each step index its handler result;
concrete wirings to the real calculator and code handlers are defined below
the engine. -/

structure StepInfo where
  tool : Option String
  input : String
  status : String
  result : Option String
deriving DecidableEq

structure FailureRecord where
  step : ℕ
  tool : String
  input : String
  error : String
deriving DecidableEq

structure AgentState where
  query : String
  steps : List StepInfo
  current_step_index : ℕ
  results : List String
  failed_steps : List FailureRecord
  document : String
  chat_history : List (String × String)
  final_response : Option String
deriving DecidableEq

/-- `MasterAgent._task_planner_node`: turn the external planner's steps into
pending `StepInfo`s (tool defaulting to `"llm"`), or fall back to a single
llm step on the raw query; reset the index to 0. -/
def taskPlannerNode (plannedSteps : List (Option String × String)) (st : AgentState) :
    AgentState :=
  let steps :=
    if plannedSteps ≠ [] then
      plannedSteps.map (fun p => StepInfo.mk (some (p.1.getD "llm")) p.2 "pending" none)
    else [StepInfo.mk (some "llm") st.query "pending" none]
  { st with steps := steps, current_step_index := 0 }

/-- `MasterAgent._route_to_tool`. -/
def routeToTool (st : AgentState) : String :=
  if st.steps.length ≤ st.current_step_index then "done"
  else
    match st.steps.get? st.current_step_index with
    | none => "llm"
    | some step =>
      let toolName := step.tool.getD "llm"
      if toolName = "calculator" then "calculator"
      else if toolName = "code_executor" then "code_executor"
      else if toolName = "web_search" then "web_search"
      else if toolName = "summarizer" then "summarizer"
      else "llm"

/-- The common body of the five `_*_node` handlers, lines 374–387 of the
calculator node and its copies: `nodeTool` is the executing node's fixed name
(which the failure record carries), `outcome` the sub-agent's result. -/
def executeToolNode (nodeTool : String) (outcome : ToolResult) (st : AgentState) : AgentState :=
  match st.steps.get? st.current_step_index with
  | none => st
  | some step =>
    { st with
      steps := st.steps.set st.current_step_index
        { step with result := some outcome.result,
                    status := if outcome.success then "completed" else "failed" },
      results := st.results ++ [outcome.result],
      failed_steps := st.failed_steps ++
        (if outcome.success then []
         else [⟨st.current_step_index + 1, nodeTool, step.input, outcome.result⟩]) }

/-- `MasterAgent._next_step_node`. -/
def nextStepNode (st : AgentState) : AgentState :=
  { st with current_step_index := st.current_step_index + 1 }

/-- One routed dispatch: the conditional edge selects the node named by
`routeToTool`, which runs its sub-agent (the oracle) and the shared update. -/
def dispatchStep (oracle : ℕ → ToolResult) (st : AgentState) : AgentState :=
  executeToolNode (routeToTool st) (oracle st.current_step_index) st

/-- The dispatch cycle of the compiled graph (`route → node → next_step →
route → …`), fuelled; each iteration advances `current_step_index` by one, so
`steps.length - current_step_index` fuel always suffices. -/
def execLoop (oracle : ℕ → ToolResult) : ℕ → AgentState → AgentState
  | 0, st => st
  | fuel + 1, st =>
    if routeToTool st = "done" then st
    else execLoop oracle fuel (nextStepNode (dispatchStep oracle st))

/-- Python `str.title()` (alphabetic boundary approximation). -/
def pyTitleAux : Bool → List Char → List Char
  | _, [] => []
  | prevAlpha, c :: cs =>
    (if c.isAlpha then (if prevAlpha then c.toLower else c.toUpper) else c) ::
      pyTitleAux c.isAlpha cs

def pyTitle (s : String) : String := String.mk (pyTitleAux false s.data)

/-- The `tool_headers` mapping with its `dict.get` default. -/
def toolHeader (tool : String) : String :=
  if tool = "web_search" then "## Web Search Agent:"
  else if tool = "calculator" then "## Calculator Agent:"
  else if tool = "summarizer" then "## Summarizer Agent:"
  else if tool = "code_executor" then "## Code Executor Agent:"
  else if tool = "llm" then "## LLM Agent:"
  else "## " ++ pyTitle tool ++ " Agent:"

/-- `step.get("result", "")` rendered into the f-string: the key is always
present in an executed step, and a still-`None` value renders as `"None"`. -/
def stepResultText : Option String → String
  | some r => r
  | none => "None"

/-- One per-step block `f"{header}\n{result}"` of `_format_response_node`. -/
def stepBlock (step : StepInfo) : String :=
  toolHeader (step.tool.getD "llm") ++ "\n" ++ stepResultText step.result

/-- One failed-steps line `f"• Step {step} ({tool}): {error}"`. -/
def failureLine (fs : FailureRecord) : String :=
  "• Step " ++ natStr fs.step ++ " (" ++ fs.tool ++ "): " ++ fs.error

/-- `MasterAgent._format_response_node`. -/
def formatResponseNode (st : AgentState) : AgentState :=
  let totalSteps := st.steps.length
  let formattedResults := st.steps.map stepBlock
  if st.failed_steps.isEmpty then
    let resp :=
      if formattedResults.length > 1 then joinSep "\n\n" formattedResults
      else formattedResults.headD ""
    { st with final_response := some resp }
  else
    let successfulCount : ℤ := (totalSteps : ℤ) - st.failed_steps.length
    let headParts :=
      if successfulCount = 0 then
        ["❌ **All steps failed** for your request: \"" ++ st.query ++ "\""]
      else
        ["✅ **Partial Success:** " ++ intStr successfulCount ++ " out of " ++
            natStr totalSteps ++ " steps completed.",
          "\n**✅ Successful Results:**"] ++ formattedResults
    let resp := joinSep "\n"
      (headParts ++ ["\n**❌ Failed Steps:**"] ++ st.failed_steps.map failureLine)
    { st with final_response := some resp }

/-- Full plan execution from a post-planner state: the dispatch cycle until
the router says `"done"`, then response formatting. -/
def runPlan (oracle : ℕ → ToolResult) (st : AgentState) : AgentState :=
  formatResponseNode (execLoop oracle (st.steps.length - st.current_step_index) st)

/-- Oracle wiring the real calculator handler to every step of a plan whose
steps are all calculator steps (the `none` arm is out of range, unreached). -/
def calcPlanOracle (memory : Option ShortTermMemory) (steps : List StepInfo) (i : ℕ) :
    ToolResult :=
  match steps.get? i with
  | some step => calculatorAgentRun memory step.input
  | none => ⟨"Calculator error", false⟩

/-- Count of plan steps whose status is `"failed"`. -/
def countFailedSteps (steps : List StepInfo) : ℕ :=
  (steps.filter (fun s => s.status = "failed")).length

/-! ## Concrete scenario data used by counterexamples and witnesses -/

/-- A conversation history whose only assistant line is accepted by the
calculator's scan (it carries the `Final Result:` marker) and whose first
numeric token is the full-precision `185.407089`. -/
def memC4 : ShortTermMemory :=
  ⟨[("calculate 27 times 6.867", "Final Result: 185.407089")]⟩

/-- A two-step all-calculator plan: an evaluator-error step then a good one. -/
def stepsC1 : List StepInfo :=
  [⟨some "calculator", "1/0", "pending", none⟩,
   ⟨some "calculator", "2+2", "pending", none⟩]

def stateC1 : AgentState := ⟨"compute", stepsC1, 0, [], [], "", [], none⟩

/-- A post-execution state with one failed and one successful step. -/
def stateC2 : AgentState :=
  ⟨"do things",
   [⟨some "calculator", "bad", "failed", some "Calculator error: boom"⟩,
    ⟨some "llm", "hi", "completed", some "hello there"⟩],
   2, ["Calculator error: boom", "hello there"],
   [⟨1, "calculator", "bad", "Calculator error: boom"⟩], "", [], none⟩

/-- Execution oracle for the code scenarios: the broken code has a syntax
error with message `ORIGINAL-ERR`; the fixer's candidate fails differently. -/
def execC3 : ExecFn := fun code ns =>
  if code = "x ==" then (ns, .syntaxError "ORIGINAL-ERR")
  else if code = "x = 1" then (ns, .otherError "NameError" "SECOND-ERR")
  else (ns, .ok "ran")

def llmC3 : String → String := fun _ => "x = 1"

/-- Execution oracle raising a recursion-depth error on `f()`. -/
def execC9 : ExecFn := fun code ns =>
  if code = "f()" then (ns, .recursionError "maximum recursion depth exceeded")
  else (ns, .ok "")

/-- Execution oracle for the namespace-persistence scenario: `x = 5` binds
`x` in the namespace, any other code leaves it untouched. -/
def execC8 : ExecFn := fun code ns =>
  if code = "x = 5" then (dictSet "x" ⟨"5", false, true⟩ ns, .ok "")
  else (ns, .ok "done")

def valC8 : PyVal := ⟨"5", false, true⟩

/-- Oracle for the aggregate-count scenario: step 0 succeeds, step 1 fails. -/
def oracleC6 : ℕ → ToolResult := fun i =>
  if i = 0 then ⟨"fine", true⟩ else ⟨"broke", false⟩

/-- Generic failing oracle used by the amended error-propagation witness. -/
def oracleC1 : ℕ → ToolResult := fun _ => ⟨"handler failure text", false⟩

/-- A two-step pending plan for the aggregate-count witness. -/
def stateC6 : AgentState :=
  ⟨"q", [⟨some "llm", "a", "pending", none⟩, ⟨some "web_search", "b", "pending", none⟩],
    0, [], [], "", [], none⟩

/-- The session codes of the namespace-persistence witness. -/
def codesC8 : List String := ["x = 5", "print(x)"]

/-- A state whose current step names an unknown tool. -/
def stateC5 : AgentState :=
  ⟨"q", [⟨some "telescope", "look", "pending", none⟩], 0, [], [], "", [], none⟩

/-! ## Helper lemmas -/

theorem isSubstrList_iff (pat : List Char) :
    ∀ s : List Char, isSubstrList pat s = true ↔ ∃ l r, s = l ++ pat ++ r := by
  intro s
  induction s with
  | nil =>
    simp only [isSubstrList, List.isEmpty_iff]
    constructor
    · rintro rfl; exact ⟨[], [], rfl⟩
    · rintro ⟨l, r, h⟩
      rcases List.append_eq_nil.mp h.symm with ⟨h1, h2⟩
      exact (List.append_eq_nil.mp h1).2
  | cons c cs ih =>
    simp only [isSubstrList, Bool.or_eq_true, List.isPrefixOf_iff_prefix, ih]
    constructor
    · rintro (⟨t, ht⟩ | ⟨l, r, rfl⟩)
      · exact ⟨[], t, by simpa using ht.symm⟩
      · exact ⟨c :: l, r, rfl⟩
    · rintro ⟨l, r, h⟩
      cases l with
      | nil => exact Or.inl ⟨r, by simpa using h.symm⟩
      | cons d l' =>
        refine Or.inr ⟨l', r, ?_⟩
        simp only [List.cons_append] at h
        injection h with h1 h2

theorem isSubstrList_trans {p q s : List Char} (hpq : isSubstrList p q = true)
    (hqs : isSubstrList q s = true) : isSubstrList p s = true := by
  rcases (isSubstrList_iff p q).mp hpq with ⟨a, b, hq⟩
  rcases (isSubstrList_iff q s).mp hqs with ⟨l, r, hs⟩
  subst hq
  refine (isSubstrList_iff p _).mpr ⟨l ++ a, b ++ r, ?_⟩
  rw [hs]
  simp

theorem strContains_falso {s : String} (p q : String)
    (hsub : isSubstrList p.data q.data = true)
    (h : strContains s p = false) : strContains s q = false := by
  by_contra hq
  have hq' : strContains s q = true := by
    cases hcq : strContains s q
    · exact absurd hcq hq
    · rfl
  have hsp : strContains s p = true := isSubstrList_trans hsub hq'
  rw [hsp] at h
  exact Bool.noConfusion h

theorem string_eq_of_data {s t : String} (h : s.data = t.data) : s = t := by
  cases s
  cases t
  exact congrArg String.mk h

theorem strData_append (a b : String) : (a ++ b).data = a.data ++ b.data := rfl

theorem joinSep_cons (sep x : String) {xs : List String} (h : xs ≠ []) :
    joinSep sep (x :: xs) = x ++ sep ++ joinSep sep xs := by
  cases xs with
  | nil => exact absurd rfl h
  | cons y ys => rfl

theorem joinSep_append (sep : String) {l1 l2 : List String} (h1 : l1 ≠ []) (h2 : l2 ≠ []) :
    joinSep sep (l1 ++ l2) = joinSep sep l1 ++ sep ++ joinSep sep l2 := by
  induction l1 with
  | nil => exact absurd rfl h1
  | cons x xs ih =>
    cases xs with
    | nil =>
      cases l2 with
      | nil => exact absurd rfl h2
      | cons y ys => rfl
    | cons z zs =>
      have hne : (z :: zs) ++ l2 ≠ [] := by simp
      rw [List.cons_append, joinSep_cons sep x hne, ih (by simp),
        joinSep_cons sep x (by simp)]
      simp [String.append_assoc]

/-! ## C5 — routing totality and completion -/

/-- C5: the router is total and characterises completion: it answers
`"done"` exactly when the current index has passed the end of the plan;
otherwise it maps the current step's tool to one of the five handler names,
and any unrecognised or missing tool resolves to the `"llm"` handler. -/
theorem routeToTool_spec (st : AgentState) :
    (routeToTool st = "done" ↔ st.steps.length ≤ st.current_step_index) ∧
    (∀ step, st.steps.get? st.current_step_index = some step →
      routeToTool st ∈
        (["calculator", "code_executor", "web_search", "summarizer", "llm"] : List String) ∧
      (step.tool.getD "llm" ∉
          (["calculator", "code_executor", "web_search", "summarizer", "llm"] : List String) →
        routeToTool st = "llm") ∧
      (step.tool = none → routeToTool st = "llm")) := by
  constructor
  · by_cases hle : st.steps.length ≤ st.current_step_index
    · simp [routeToTool, hle]
    · have hlt : st.current_step_index < st.steps.length := lt_of_not_le hle
      have hstep := List.get?_eq_get hlt
      simp only [routeToTool, if_neg hle, hstep]
      constructor
      · intro h
        split_ifs at h <;> exact absurd h (by decide)
      · intro h; exact absurd h hle
  · intro step hstep
    have hlt : st.current_step_index < st.steps.length := (List.get?_eq_some.mp hstep).1
    have hle : ¬ st.steps.length ≤ st.current_step_index := not_le.mpr hlt
    refine ⟨?_, ?_, ?_⟩
    · simp only [routeToTool, if_neg hle, hstep]
      split_ifs <;> simp
    · intro hnot
      simp only [List.mem_cons, List.mem_singleton, not_or, List.not_mem_nil] at hnot
      simp only [routeToTool, if_neg hle, hstep]
      split_ifs with h1 h2 h3 h4 <;> first
        | rfl
        | (exact absurd h1 hnot.1)
        | (exact absurd h2 hnot.2.1)
        | (exact absurd h3 hnot.2.2.1)
        | (exact absurd h4 hnot.2.2.2.1)
    · intro hnone
      simp only [routeToTool, if_neg hle, hstep, hnone, Option.getD_none]
      split_ifs with h1 h2 h3 h4 <;> first
        | rfl
        | (exact absurd h1 (by decide))
        | (exact absurd h2 (by decide))
        | (exact absurd h3 (by decide))
        | (exact absurd h4 (by decide))

/-- C5 witness: at a concrete state whose current step names the unknown
tool `"telescope"`, the router lands on the llm handler, and completion is
characterised as stated. -/
theorem routeToTool_spec_witness :
    stateC5.steps.get? stateC5.current_step_index =
        some ⟨some "telescope", "look", "pending", none⟩ ∧
      routeToTool stateC5 = "llm" ∧ ¬ routeToTool stateC5 = "done" := by
  have hstep : stateC5.steps.get? stateC5.current_step_index =
      some ⟨some "telescope", "look", "pending", none⟩ := by decide
  refine ⟨hstep, ?_, ?_⟩
  · exact ((routeToTool_spec stateC5).2 _ hstep).2.1 (by decide)
  · intro h
    exact absurd (((routeToTool_spec stateC5).1).mp h) (by decide)

/-! ## C7 — at most one corrective re-execution -/

theorem codeAgentDecide_execCount (rerun : String → RunOut) (fixedCode code : String)
    (r1 : RunOut) : (codeAgentDecide rerun fixedCode code r1).execCount ≤ 2 := by
  have hb : ∀ b : Bool, b2n b ≤ 1 := by intro b; cases b <;> simp [b2n]
  have h2 : ∀ b c : Bool, b2n b + b2n c ≤ 2 := by
    intro b c; cases b <;> cases c <;> simp [b2n]
  unfold codeAgentDecide
  dsimp only
  split_ifs <;>
    first
      | exact le_trans (hb _) one_le_two
      | exact h2 _ _

/-- C7: for every invocation of the code runner, the execution primitive
runs at most twice: the original execution plus at most one auto-fixed
attempt, whatever the outcome of that attempt. -/
theorem code_runner_at_most_two_execs (execFn : ExecFn) (llm : String → String)
    (ns : CodeNamespace) (code : String) :
    (codeAgentRun execFn llm ns code).execCount ≤ 2 := by
  unfold codeAgentRun
  split_ifs
  · exact Nat.zero_le 2
  · exact codeAgentDecide_execCount _ _ _ _

/-! ## C9 — recursion errors are classified as success -/

/-- C9: when the executed code raises a recursion-depth error, the classified
text `Recursion error: <msg>. The function may have infinite recursion.` does
not contain the marker substring `Error` the handler checks for, so
`CodeAgent.run` reports `success = true`, and the master's code node then
marks the step `completed` and records no failure — even though the code
crashed. -/
theorem recursion_error_reported_as_success (execFn : ExecFn) (llm : String → String)
    (ns ns2 : CodeNamespace) (raw msg : String)
    (hraw : raw ≠ "")
    (hcode : pyStrip (extractCodeFromMessage raw) ≠ "")
    (hexec : execFn (pyStrip (extractCodeFromMessage raw)) ns = (ns2, .recursionError msg))
    (hmsg : strContains
      ("Recursion error: " ++ msg ++ ". The function may have infinite recursion.")
      "Error" = false) :
    (codeAgentRun execFn llm ns raw).success = true ∧
    (codeAgentRun execFn llm ns raw).result =
      "**Code Execution Result:**\n" ++
        ("Recursion error: " ++ msg ++ ". The function may have infinite recursion.") ∧
    ∀ (st : AgentState) (step : StepInfo),
      st.steps.get? st.current_step_index = some step →
      (executeToolNode "code_executor"
          ⟨(codeAgentRun execFn llm ns raw).result, (codeAgentRun execFn llm ns raw).success⟩
          st).failed_steps = st.failed_steps ∧
      (executeToolNode "code_executor"
          ⟨(codeAgentRun execFn llm ns raw).result, (codeAgentRun execFn llm ns raw).success⟩
          st).steps.get? st.current_step_index =
        some { step with result := some (codeAgentRun execFn llm ns raw).result,
                         status := "completed" } := by
  have hr1 : runCodeWithNamespace execFn ns (extractCodeFromMessage raw) =
      ⟨ns2, "Recursion error: " ++ msg ++ ". The function may have infinite recursion.", true⟩ := by
    unfold runCodeWithNamespace
    rw [if_neg hcode, hexec]
  have hsyn : strContains
      ("Recursion error: " ++ msg ++ ". The function may have infinite recursion.")
      "SyntaxError" = false :=
    strContains_falso "Error" "SyntaxError" (by decide) hmsg
  have hind : strContains
      ("Recursion error: " ++ msg ++ ". The function may have infinite recursion.")
      "IndentationError" = false :=
    strContains_falso "Error" "IndentationError" (by decide) hmsg
  have hrun : codeAgentRun execFn llm ns raw =
      ⟨"**Code Execution Result:**\n" ++
        ("Recursion error: " ++ msg ++ ". The function may have infinite recursion."),
        true, ns2, 1⟩ := by
    unfold codeAgentRun
    rw [if_neg hraw]
    dsimp only
    rw [hr1]
    unfold codeAgentDecide
    dsimp only
    rw [hsyn, hind, hmsg]
    simp [b2n]
  refine ⟨by rw [hrun], by rw [hrun], ?_⟩
  intro st step hstep
  have hlt : st.current_step_index < st.steps.length := (List.get?_eq_some.mp hstep).1
  constructor
  · simp only [executeToolNode, hstep, hrun]
    simp
  · simp only [executeToolNode, hstep, hrun]
    rw [List.get?_set_eq_of_lt _ (by simpa using hlt)]
    simp

/-- C9 witness: a concrete execution oracle raising the standard Python
recursion message; the runner reports success and the node records nothing. -/
theorem recursion_error_reported_as_success_witness :
    (("f()" : String) ≠ "" ∧
      strContains
        ("Recursion error: " ++ "maximum recursion depth exceeded" ++
          ". The function may have infinite recursion.") "Error" = false) ∧
    (codeAgentRun execC9 llmC3 [] "f()").success = true ∧
    (executeToolNode "code_executor"
        ⟨(codeAgentRun execC9 llmC3 [] "f()").result,
          (codeAgentRun execC9 llmC3 [] "f()").success⟩
        stateC1).failed_steps = stateC1.failed_steps := by
  have h := recursion_error_reported_as_success execC9 llmC3 [] []
    "f()" "maximum recursion depth exceeded"
    (by decide) (by decide) (by decide) (by decide)
  exact ⟨⟨by decide, by decide⟩, h.1,
    (h.2.2 stateC1 ⟨some "calculator", "1/0", "pending", none⟩ (by decide)).1⟩

/-! ## C3 — what the auto-fix failure path reports -/

/-- C3 counterexample: with a first execution failing with
`SyntaxError: ORIGINAL-ERR` and a differing corrected candidate that fails
with a new error `SECOND-ERR`, the reported result is built from the
re-execution's error and does not contain the original error text at all —
the claim says the original error text is reported. -/
theorem autofix_reports_rerun_error_counterexample :
    codeAgentRun execC3 llmC3 [] "x ==" =
      ⟨"**Code Execution Error:** Error: NameError: SECOND-ERR (Auto-fixer failed)",
        false, [], 2⟩ ∧
    strContains (codeAgentRun execC3 llmC3 [] "x ==").result "ORIGINAL-ERR" = false := by
  decide

/-- C3 amended: the runner's plumbing dispatches `CodeAgent.run` to the
post-first-run branch logic, and in that logic: when the corrected code is
textually identical (after strip) to the original, the reported result is the
original error text suffixed with the auto-fixer-failed note; when the
corrected code differs but its re-execution still carries an error marker,
the reported result is the re-execution's error text — not the original —
suffixed with the same note; both report failure. -/
theorem autofix_failure_reporting (execFn : ExecFn) (llm : String → String)
    (ns : CodeNamespace) (raw : String) (hraw : raw ≠ "") :
    codeAgentRun execFn llm ns raw =
      codeAgentDecide
        (runCodeWithNamespace execFn
          (runCodeWithNamespace execFn ns (extractCodeFromMessage raw)).ns)
        (fixCodeWithLLM llm (extractCodeFromMessage raw)) (extractCodeFromMessage raw)
        (runCodeWithNamespace execFn ns (extractCodeFromMessage raw)) ∧
    ∀ (rerun : String → RunOut) (fixedCode code : String) (r1 : RunOut),
      (strContains r1.text "SyntaxError" || strContains r1.text "IndentationError") = true →
      (pyStrip fixedCode = pyStrip code →
        codeAgentDecide rerun fixedCode code r1 =
          ⟨"**Code Execution Error:** " ++ r1.text ++ " (Auto-fixer failed)", false, r1.ns,
            b2n r1.execd⟩) ∧
      (pyStrip fixedCode ≠ pyStrip code → strContains (rerun fixedCode).text "Error" = true →
        codeAgentDecide rerun fixedCode code r1 =
          ⟨"**Code Execution Error:** " ++ (rerun fixedCode).text ++ " (Auto-fixer failed)",
            false, (rerun fixedCode).ns, b2n r1.execd + b2n (rerun fixedCode).execd⟩) := by
  constructor
  · unfold codeAgentRun
    rw [if_neg hraw]
  · intro rerun fixedCode code r1 hsyn
    constructor
    · intro heq
      unfold codeAgentDecide
      rw [if_pos hsyn, if_neg (fun hne => hne heq)]
    · intro hne h2
      unfold codeAgentDecide
      rw [if_pos hsyn, if_pos hne]
      dsimp only
      rw [h2]
      simp

/-! ## C8 — one persistent execution namespace per session -/

theorem codeAgentSession_append (execFn : ExecFn) (llm : String → String) :
    ∀ (l1 l2 : List String) (ns : CodeNamespace),
      codeAgentSession execFn llm ns (l1 ++ l2) =
        codeAgentSession execFn llm (codeAgentSession execFn llm ns l1) l2 := by
  intro l1
  induction l1 with
  | nil => intro l2 ns; rfl
  | cons c cs ih =>
    intro l2 ns
    simp only [List.cons_append, codeAgentSession]
    exact ih l2 _

/-- C8: the code runner threads one persistent namespace through the whole
session — every invocation executes against the namespace produced by all the
previous invocations (first conjunct), so a top-level binding present after
invocation `N` and preserved by each intervening invocation is still present
in the namespace handed to any later invocation `N + 1 + k` (second
conjunct; `codes.take i` are the first `i` invocations of the session). -/
theorem code_namespace_persistence (execFn : ExecFn) (llm : String → String) :
    (∀ (ns0 : CodeNamespace) (l : List String) (c : String),
      codeAgentSession execFn llm ns0 (l ++ [c]) =
        (codeAgentRun execFn llm (codeAgentSession execFn llm ns0 l) c).ns) ∧
    ∀ (ns0 : CodeNamespace) (codes : List String) (N k : ℕ) (x : String) (v : PyVal),
      lookupNs x (codeAgentSession execFn llm ns0 (codes.take (N + 1))) = some v →
      (∀ j, j < k →
        lookupNs x (codeAgentSession execFn llm ns0 (codes.take (N + 1 + j))) = some v →
        lookupNs x (codeAgentSession execFn llm ns0 (codes.take (N + 1 + j + 1))) = some v) →
      lookupNs x (codeAgentSession execFn llm ns0 (codes.take (N + 1 + k))) = some v := by
  constructor
  · intro ns0 l c
    rw [codeAgentSession_append]
    rfl
  · intro ns0 codes N k x v hbind hstep
    induction k with
    | zero => exact hbind
    | succ k ih =>
      have hk : N + 1 + (k + 1) = N + 1 + k + 1 := by omega
      rw [hk]
      exact hstep k (Nat.lt_succ_self k) (ih (fun j hj => hstep j (Nat.lt_succ_of_lt hj)))

/-- C8 witness: in a concrete session, `x = 5` creates the binding after
invocation 0 and it is still present in the namespace after invocation 1
(`print(x)`), the namespace handed to any following invocation. -/
theorem code_namespace_persistence_witness :
    lookupNs "x" (codeAgentSession execC8 llmC3 [] (codesC8.take 1)) = some valC8 ∧
    lookupNs "x" (codeAgentSession execC8 llmC3 [] (codesC8.take 2)) = some valC8 := by
  have h := (code_namespace_persistence execC8 llmC3).2 [] codesC8 0 1 "x" valC8
    (by decide)
    (by
      intro j hj
      have hj0 : j = 0 := by omega
      subst hj0
      decide)
  exact ⟨by decide, h⟩

/-! ## C6 — every dispatched step contributes one result; failures match -/

theorem take_succ_set_self {α : Type} :
    ∀ (l : List α) (i : ℕ) (v : α), i < l.length →
      (l.set i v).take (i + 1) = l.take i ++ [v] := by
  intro l
  induction l with
  | nil => intro i v h; simp at h
  | cons a t ih =>
    intro i v h
    cases i with
    | zero => simp
    | succ j =>
      simp only [List.set_cons_succ, List.take_succ_cons, List.cons_append]
      rw [ih j v (by simpa using h)]

theorem drop_succ_set_self {α : Type} :
    ∀ (l : List α) (i : ℕ) (v : α), (l.set i v).drop (i + 1) = l.drop (i + 1) := by
  intro l
  induction l with
  | nil => intro i v; simp
  | cons a t ih =>
    intro i v
    cases i with
    | zero => simp
    | succ j =>
      simp only [List.set_cons_succ, List.drop_succ_cons]
      exact ih j v

theorem countFailedSteps_append (a b : List StepInfo) :
    countFailedSteps (a ++ b) = countFailedSteps a + countFailedSteps b := by
  simp [countFailedSteps, List.filter_append]

theorem routeToTool_ne_done {st : AgentState}
    (hlt : st.current_step_index < st.steps.length) : routeToTool st ≠ "done" := by
  have hstep := List.get?_eq_get hlt
  simp only [routeToTool, if_neg (not_le.mpr hlt), hstep]
  split_ifs <;> decide

theorem execLoop_invariant (oracle : ℕ → ToolResult) :
    ∀ (fuel : ℕ) (st : AgentState),
      st.steps.length ≤ st.current_step_index + fuel →
      st.current_step_index ≤ st.steps.length →
      st.results.length = st.current_step_index →
      st.failed_steps.length = countFailedSteps (st.steps.take st.current_step_index) →
      (∀ s ∈ st.steps.drop st.current_step_index, s.status ≠ "failed") →
      (execLoop oracle fuel st).steps.length = st.steps.length ∧
      (execLoop oracle fuel st).current_step_index = st.steps.length ∧
      (execLoop oracle fuel st).results.length = st.steps.length ∧
      (execLoop oracle fuel st).failed_steps.length =
        countFailedSteps (execLoop oracle fuel st).steps := by
  intro fuel
  induction fuel with
  | zero =>
    intro st hfuel hle hres hfail _
    have heq : st.current_step_index = st.steps.length := le_antisymm hle (by simpa using hfuel)
    rw [show execLoop oracle 0 st = st from rfl]
    exact ⟨rfl, heq, by rw [hres, heq], by rw [hfail, heq, List.take_length]⟩
  | succ fuel ih =>
    intro st hfuel hle hres hfail hpend
    by_cases hdone : st.steps.length ≤ st.current_step_index
    · have heq : st.current_step_index = st.steps.length := le_antisymm hle hdone
      have hroute : routeToTool st = "done" := by simp [routeToTool, hdone]
      have hstop : execLoop oracle (fuel + 1) st = st := by
        simp [execLoop, hroute]
      rw [hstop]
      exact ⟨rfl, heq, by rw [hres, heq], by rw [hfail, heq, List.take_length]⟩
    · have hlt : st.current_step_index < st.steps.length := lt_of_not_le hdone
      have hroute := routeToTool_ne_done hlt
      obtain ⟨step, hstep⟩ : ∃ step, st.steps.get? st.current_step_index = some step :=
        ⟨_, List.get?_eq_get hlt⟩
      have hloop : execLoop oracle (fuel + 1) st =
          execLoop oracle fuel (nextStepNode (dispatchStep oracle st)) := by
        simp only [execLoop, if_neg hroute]
      have hdisp : dispatchStep oracle st =
          { st with
            steps := st.steps.set st.current_step_index
              { step with result := some (oracle st.current_step_index).result,
                          status := if (oracle st.current_step_index).success then "completed"
                                    else "failed" },
            results := st.results ++ [(oracle st.current_step_index).result],
            failed_steps := st.failed_steps ++
              (if (oracle st.current_step_index).success then []
               else [⟨st.current_step_index + 1, routeToTool st, step.input,
                      (oracle st.current_step_index).result⟩]) } := by
        unfold dispatchStep executeToolNode
        rw [hstep]
      rw [hloop, hdisp]
      have hres' := ih (nextStepNode
        { st with
          steps := st.steps.set st.current_step_index
            { step with result := some (oracle st.current_step_index).result,
                        status := if (oracle st.current_step_index).success then "completed"
                                  else "failed" },
          results := st.results ++ [(oracle st.current_step_index).result],
          failed_steps := st.failed_steps ++
            (if (oracle st.current_step_index).success then []
             else [⟨st.current_step_index + 1, routeToTool st, step.input,
                    (oracle st.current_step_index).result⟩]) })
        (by simp [nextStepNode]; omega)
        (by simp [nextStepNode]; omega)
        (by simp [nextStepNode, hres])
        (by
          simp only [nextStepNode, List.length_append]
          rw [take_succ_set_self _ _ _ hlt, countFailedSteps_append, hfail]
          cases hsucc : (oracle st.current_step_index).success <;>
            simp [countFailedSteps, hsucc])
        (by
          simp only [nextStepNode]
          rw [drop_succ_set_self]
          intro s hs
          refine hpend s ?_
          have : st.steps.drop (st.current_step_index + 1) =
              (st.steps.drop st.current_step_index).drop 1 := by
            rw [List.drop_drop]
          rw [this] at hs
          exact List.drop_subset 1 _ hs)
      simpa [nextStepNode] using hres'

/-- C6: for a freshly planned state (index 0, empty result and failure lists,
no step pre-marked failed), fully executing a plan of length `N` leaves
exactly `N` entries in the results list — one per dispatched step — and
exactly as many failure records as steps whose final status is `"failed"`. -/
theorem plan_execution_accounting (oracle : ℕ → ToolResult) (st : AgentState)
    (h0 : st.current_step_index = 0) (hres : st.results = [])
    (hfail : st.failed_steps = [])
    (hpend : ∀ s ∈ st.steps, s.status ≠ "failed") :
    (execLoop oracle st.steps.length st).results.length = st.steps.length ∧
    (execLoop oracle st.steps.length st).failed_steps.length =
      countFailedSteps (execLoop oracle st.steps.length st).steps := by
  have h := execLoop_invariant oracle st.steps.length st (by omega) (by omega)
    (by simp [hres, h0]) (by simp [hfail, h0, countFailedSteps])
    (by simpa [h0] using hpend)
  exact ⟨h.2.2.1, h.2.2.2⟩

/-- C6 witness: a concrete two-step plan under an oracle whose second step
fails: two results, and the failure count matches the failed statuses. -/
theorem plan_execution_accounting_witness :
    (stateC6.current_step_index = 0 ∧ stateC6.results = [] ∧ stateC6.failed_steps = []) ∧
    (execLoop oracleC6 stateC6.steps.length stateC6).results.length =
      stateC6.steps.length ∧
    (execLoop oracleC6 stateC6.steps.length stateC6).failed_steps.length =
      countFailedSteps (execLoop oracleC6 stateC6.steps.length stateC6).steps := by
  have h := plan_execution_accounting oracleC6 stateC6 (by decide) (by decide) (by decide)
    (by decide)
  exact ⟨⟨by decide, by decide, by decide⟩, h.1, h.2⟩

/-- C3 witness: the amended reporting equations at the concrete scenario —
an original `SyntaxError: ORIGINAL-ERR`, a differing fix that fails with
`SECOND-ERR`, and an identical-fix variant reporting the original error. -/
theorem autofix_failure_reporting_witness :
    (("x ==" : String) ≠ "") ∧
    codeAgentDecide (runCodeWithNamespace execC3 []) "x = 1" "x =="
        ⟨[], "SyntaxError: ORIGINAL-ERR", true⟩ =
      ⟨"**Code Execution Error:** Error: NameError: SECOND-ERR (Auto-fixer failed)",
        false, [], 2⟩ ∧
    codeAgentDecide (runCodeWithNamespace execC3 []) "x ==" "x =="
        ⟨[], "SyntaxError: ORIGINAL-ERR", true⟩ =
      ⟨"**Code Execution Error:** SyntaxError: ORIGINAL-ERR (Auto-fixer failed)",
        false, [], 1⟩ := by
  have h := autofix_failure_reporting execC3 llmC3 [] "x ==" (by decide)
  refine ⟨by decide, ?_, ?_⟩
  · have := (h.2 (runCodeWithNamespace execC3 []) "x = 1" "x =="
      ⟨[], "SyntaxError: ORIGINAL-ERR", true⟩ (by decide)).2 (by decide) (by decide)
    rw [this]
    decide
  · have := (h.2 (runCodeWithNamespace execC3 []) "x ==" "x =="
      ⟨[], "SyntaxError: ORIGINAL-ERR", true⟩ (by decide)).1 (by decide)
    rw [this]
    decide

/-! ## C1 — what happens when a handler's internal execution errors -/

/-- C1 counterexample: a calculator step whose restricted evaluator raises
(`1/0`, a `ZeroDivisionError`) is NOT marked failed and NOT recorded in the
failures list: the error text becomes the step result, the step is marked
`completed`, and the plan continues (the following step still runs).  The
claim says such a step is marked failed and recorded. -/
theorem evaluator_error_step_not_failed_counterexample :
    (runPlan (calcPlanOracle none stepsC1) stateC1).steps.map (fun s => s.status) =
      ["completed", "completed"] ∧
    (runPlan (calcPlanOracle none stepsC1) stateC1).failed_steps = [] ∧
    (runPlan (calcPlanOracle none stepsC1) stateC1).results =
      ["Calculator error: division by zero", "2+2 = 4"] := by
  decide

/-- C1 amended: a handler that reports failure has its error text recorded:
the step is marked `failed`, a failure record carrying the error is appended,
and execution continues with the next step (first conjunct).  The calculator,
however, catches evaluator errors inside the tool and reports success, so an
evaluator error yields `success = true` with the readable error text as the
result (second conjunct) — such a step is marked completed, as the
counterexample shows. -/
theorem handler_error_propagation :
    (∀ (oracle : ℕ → ToolResult) (st : AgentState) (step : StepInfo),
      st.steps.get? st.current_step_index = some step →
      (oracle st.current_step_index).success = false →
      (nextStepNode (dispatchStep oracle st)).current_step_index =
        st.current_step_index + 1 ∧
      (nextStepNode (dispatchStep oracle st)).steps.get? st.current_step_index =
        some { step with result := some (oracle st.current_step_index).result,
                         status := "failed" } ∧
      (nextStepNode (dispatchStep oracle st)).failed_steps =
        st.failed_steps ++ [⟨st.current_step_index + 1, routeToTool st, step.input,
          (oracle st.current_step_index).result⟩]) ∧
    ∀ (mem : Option ShortTermMemory) (expr msg : String),
      expr ≠ "" →
      evalArith (normalizeExpr ((resolveContextSubstitution mem expr).getD expr)) =
        .error msg →
      calculatorAgentRun mem expr = ⟨"Calculator error: " ++ msg, true⟩ := by
  constructor
  · intro oracle st step hstep hfal
    have hlt : st.current_step_index < st.steps.length := (List.get?_eq_some.mp hstep).1
    unfold nextStepNode dispatchStep executeToolNode
    rw [hstep, hfal]
    refine ⟨rfl, ?_, by simp⟩
    simp only
    rw [List.get?_set_eq_of_lt _ (by simpa using hlt)]
    simp
  · intro mem expr msg hexpr heval
    unfold calculatorAgentRun
    rw [if_neg hexpr]
    unfold calculatorToolRun evaluateExpression
    dsimp only
    rw [heval]

/-- C1 amended witness: a failing handler outcome at a concrete state is
recorded as a failed step, and the calculator's `1/0` evaluator error is
reported as success with readable error text. -/
theorem handler_error_propagation_witness :
    ((oracleC1 stateC6.current_step_index).success = false ∧
      (nextStepNode (dispatchStep oracleC1 stateC6)).failed_steps =
        [⟨1, "llm", "a", "handler failure text"⟩]) ∧
    (("1/0" : String) ≠ "" ∧
      calculatorAgentRun none "1/0" = ⟨"Calculator error: division by zero", true⟩) := by
  have h := handler_error_propagation
  refine ⟨⟨by decide, ?_⟩, by decide, ?_⟩
  · have := (h.1 oracleC1 stateC6 ⟨some "llm", "a", "pending", none⟩ (by decide)
      (by decide)).2.2
    rw [this]
    decide
  · exact h.2 none "1/0" "division by zero" (by decide) rfl

/-! ## C2 — shape of the partial-failure response -/

set_option maxRecDepth 8000 in
/-- C2 counterexample: in a partial-failure response the per-step blocks are
emitted for every step of the plan, including the failed one — here the
failed calculator step's block (`## Calculator Agent:` + its error text)
appears in the response, under the `Successful Results` banner — whereas the
claim says only the successful steps get blocks. -/
theorem partial_failure_blocks_counterexample :
    (formatResponseNode stateC2).final_response = some
      ("✅ **Partial Success:** 1 out of 2 steps completed.\n\n**✅ Successful Results:**\n## Calculator Agent:\nCalculator error: boom\n## LLM Agent:\nhello there\n\n**❌ Failed Steps:**\n• Step 1 (calculator): Calculator error: boom") ∧
    strContains
      ((formatResponseNode stateC2).final_response.getD "")
      "## Calculator Agent:\nCalculator error: boom" = true := by
  refine ⟨by decide, by decide⟩

/-- C2 amended: for a state with at least one failure and fewer failures than
steps, the response is exactly: the `X out of N steps completed` header
(X = N − failures), the successful-results banner, the per-step blocks of ALL
plan steps (failed ones included) in plan order, the failed-steps banner, and
one `• Step <n> (<tool>): <error>` line per failure record in execution
order, all newline-joined. -/
theorem format_partial_failure (st : AgentState)
    (h1 : st.failed_steps ≠ []) (h2 : st.failed_steps.length < st.steps.length) :
    (formatResponseNode st).final_response = some
      ("✅ **Partial Success:** " ++
        intStr ((st.steps.length : ℤ) - st.failed_steps.length) ++ " out of " ++
        natStr st.steps.length ++ " steps completed." ++ "\n" ++
        "\n**✅ Successful Results:**" ++ "\n" ++
        joinSep "\n" (st.steps.map stepBlock) ++ "\n" ++
        "\n**❌ Failed Steps:**" ++ "\n" ++
        joinSep "\n" (st.failed_steps.map failureLine)) := by
  have hfe : st.failed_steps.isEmpty = false := by
    cases hfs : st.failed_steps with
    | nil => exact absurd hfs h1
    | cons a t => rfl
  have hcount : ((st.steps.length : ℤ) - (st.failed_steps.length : ℤ)) ≠ 0 := by
    intro h
    omega
  have hblocks : st.steps.map stepBlock ≠ [] := by
    intro hmap
    rw [List.map_eq_nil] at hmap
    rw [hmap] at h2
    simp at h2
  have hlines : st.failed_steps.map failureLine ≠ [] := by simp [h1]
  unfold formatResponseNode
  rw [hfe, if_neg Bool.false_ne_true]
  dsimp only
  rw [if_neg hcount]
  congr 1
  simp only [List.cons_append, List.nil_append, List.append_assoc, List.singleton_append]
  rw [joinSep_cons _ _ (by simp), joinSep_cons _ _ (by simp [hblocks]),
    joinSep_append _ hblocks (by simp), joinSep_cons _ _ hlines]
  apply string_eq_of_data
  simp only [strData_append, List.append_assoc]

/-- C2 amended witness: the exact partial-failure response at the concrete
one-failed-one-successful state. -/
theorem format_partial_failure_witness :
    (stateC2.failed_steps ≠ [] ∧ stateC2.failed_steps.length < stateC2.steps.length) ∧
    (formatResponseNode stateC2).final_response = some
      ("✅ **Partial Success:** " ++
        intStr ((stateC2.steps.length : ℤ) - stateC2.failed_steps.length) ++ " out of " ++
        natStr stateC2.steps.length ++ " steps completed." ++ "\n" ++
        "\n**✅ Successful Results:**" ++ "\n" ++
        joinSep "\n" (stateC2.steps.map stepBlock) ++ "\n" ++
        "\n**❌ Failed Steps:**" ++ "\n" ++
        joinSep "\n" (stateC2.failed_steps.map failureLine)) := by
  refine ⟨⟨by decide, by decide⟩, ?_⟩
  exact format_partial_failure stateC2 (by decide) (by decide)

/-! ## C4 — context substitution for "add 10 to the previous result" -/

/-- C4 counterexample: the substitution does insert the full-precision value,
but the filler words of the phrasing survive, so the expression submitted for
evaluation (the normalized text `evaluateExpression` hands to the restricted
evaluator) is `+10tothe185.407089`, not the claimed `185.407089+10`, and
evaluation fails. -/
theorem calc_substitution_counterexample :
    resolveContextSubstitution (some memC4) "add 10 to the previous result" =
      some "add 10 to the 185.407089" ∧
    normalizeExpr "add 10 to the 185.407089" = "+10tothe185.407089" ∧
    ("+10tothe185.407089" : String) ≠ "185.407089+10" ∧
    calculatorToolRun (some memC4) "add 10 to the previous result" =
      "Calculator error: invalid decimal literal" := by
  refine ⟨by decide, by decide, by decide, by decide⟩

/-- C4 amended: resolution substitutes the full-precision `185.407089` (not a
rounded value) for the phrase `previous result`, but leaves surrounding filler
words in place: the input `add 10 to the previous result` becomes
`add 10 to the 185.407089`, whose normalization `+10tothe185.407089` fails to
evaluate; the filler-free phrasing `previous result + 10` yields the
expression `185.407089+10` and evaluates to `195.407089`. -/
theorem calc_substitution_amended :
    resolveContextSubstitution (some memC4) "add 10 to the previous result" =
      some "add 10 to the 185.407089" ∧
    strContains "add 10 to the 185.407089" "185.407089" = true ∧
    resolveContextSubstitution (some memC4) "previous result + 10" =
      some "185.407089 + 10" ∧
    normalizeExpr "185.407089 + 10" = "185.407089+10" ∧
    calculatorToolRun (some memC4) "previous result + 10" =
      "185.407089+10 = 195.407089" := by
  refine ⟨by decide, by decide, by decide, by decide, by decide⟩

/-! ## C10 — float formatting of integer-valued multiples of ten -/

theorem getLast?_append_right {α : Type} (l₁ l₂ : List α) (h : l₂ ≠ []) :
    (l₁ ++ l₂).getLast? = l₂.getLast? := by
  rw [← List.head?_reverse, ← List.head?_reverse, List.reverse_append]
  cases h2 : l₂.reverse with
  | nil => exact absurd (List.reverse_eq_nil_iff.mp h2) h
  | cons c t => rfl

theorem natChars_ne_nil (f n : ℕ) : natChars (f + 1) n ≠ [] := by
  unfold natChars
  split_ifs <;> simp

theorem natChars_getLast (f n : ℕ) :
    (natChars (f + 1) n).getLast? = some (digitChar (n % 10)) := by
  unfold natChars
  split_ifs with h
  · rw [Nat.mod_eq_of_lt h]
    rfl
  · exact List.getLast?_concat _

theorem digitChar_ne_dot {d : ℕ} (h : d < 10) : digitChar d ≠ '.' := by
  have hall : ∀ e, e < 10 → digitChar e ≠ '.' := by decide
  exact hall d h

theorem intStr_getLast_ne_dot (n : ℤ) : (intStr n).data.getLast? ≠ some '.' := by
  unfold intStr natStr
  rw [strData_append]
  rw [getLast?_append_right _ _ (by exact natChars_ne_nil n.natAbs n.natAbs)]
  rw [show (String.mk (natChars (n.natAbs + 1) n.natAbs)).data =
    natChars (n.natAbs + 1) n.natAbs from rfl]
  rw [natChars_getLast]
  intro hx
  exact absurd (Option.some.inj hx) (digitChar_ne_dot (Nat.mod_lt _ (by norm_num)))

theorem rstrip_zeros_append (s : String) :
    rstripChar '0' (s ++ ".000000") = s ++ "." := by
  refine string_eq_of_data ?_
  show (((s ++ ".000000").data.reverse.dropWhile (fun d => d = '0')).reverse) = (s ++ ".").data
  rw [strData_append, strData_append,
    show (".000000" : String).data = '.' :: '0' :: '0' :: '0' :: '0' :: '0' :: '0' :: [] from
      rfl,
    show ("." : String).data = ['.'] from rfl,
    List.reverse_append,
    show ('.' :: '0' :: '0' :: '0' :: '0' :: '0' :: '0' :: ([] : List Char)).reverse =
      '0' :: '0' :: '0' :: '0' :: '0' :: '0' :: '.' :: [] from rfl,
    show List.dropWhile (fun d => d = '0')
        (('0' :: '0' :: '0' :: '0' :: '0' :: '0' :: '.' :: []) ++ s.data.reverse) =
      '.' :: s.data.reverse from rfl,
    List.reverse_cons, List.reverse_reverse]

theorem rstrip_dot_append (s : String) (h : s.data.getLast? ≠ some '.') :
    rstripChar '.' (s ++ ".") = s := by
  refine string_eq_of_data ?_
  show (((s ++ ".").data.reverse.dropWhile (fun d => d = '.')).reverse) = s.data
  rw [strData_append, show ("." : String).data = ['.'] from rfl, List.reverse_append,
    show ((['.'] : List Char).reverse ++ s.data.reverse) = '.' :: s.data.reverse from rfl,
    show List.dropWhile (fun d => d = '.') ('.' :: s.data.reverse) =
      List.dropWhile (fun d => d = '.') s.data.reverse from rfl]
  have hdw : List.dropWhile (fun d => d = '.') s.data.reverse = s.data.reverse := by
    cases hrev : s.data.reverse with
    | nil => rfl
    | cons c t =>
      have hc : ¬ c = '.' := by
        have hhd := List.head?_reverse s.data
        rw [hrev] at hhd
        intro hcdot
        exact h (by rw [← hhd, hcdot]; rfl)
      rw [List.dropWhile_cons]
      simp [hc]
  rw [hdw, List.reverse_reverse]

/-- C10 counterexample: the trailing-zero strip stops at the decimal point and
never reaches the integer part: `1000/10` evaluates to the float `100.0` and is
rendered `"100"`, not `"1"` as the claim states. -/
theorem float_formatting_counterexample :
    evaluateExpression "1000/10" = "1000/10 = 100" ∧
    formatPyFloat ⟨100, 1⟩ = "100" ∧
    formatPyFloat ⟨100, 1⟩ ≠ "1" := by
  refine ⟨by decide, by decide, by decide⟩

/-- C10 amended: the six-decimal rendering always contains a decimal point,
and `rstrip('0')` stops there, so only fractional zeros are stripped: every
float value that is a nonzero integer multiple of 10 (value `n` represented
by any fraction `(n·d)/d`) is rendered as the untruncated decimal rendering
of `n` — `100.0` gives `"100"`, not `"1"`. -/
theorem float_formatting_keeps_integer_zeros (n d : ℤ) (hd : 0 < d) (hn : n ≠ 0)
    (hdvd : (10 : ℤ) ∣ n) : formatPyFloat ⟨n * d, d⟩ = intStr n := by
  have hb : 0 < d.natAbs := Int.natAbs_pos.mpr (ne_of_gt hd)
  have hsigniff : (n * d * d < 0) ↔ (n < 0) := by
    have hdd : 0 < d * d := mul_pos hd hd
    rw [mul_assoc]
    constructor
    · intro hlt
      by_contra hge
      have h0 : 0 ≤ n := not_lt.mp hge
      exact absurd hlt (not_lt.mpr (mul_nonneg h0 (le_of_lt hdd)))
    · intro hneg
      exact mul_neg_of_neg_of_pos hneg hdd
  have hsignEq : (if n * d * d < 0 then ("-" : String) else "") =
      (if n < 0 then ("-" : String) else "") := if_congr hsigniff rfl rfl
  have hscaled : roundHalfEvenDiv ((n * d).natAbs * 1000000) d.natAbs =
      n.natAbs * 1000000 := by
    have ha : (n * d).natAbs * 1000000 = (n.natAbs * 1000000) * d.natAbs := by
      rw [Int.natAbs_mul]
      ring
    unfold roundHalfEvenDiv
    rw [ha, Nat.mul_div_cancel _ hb, Nat.mul_mod_left]
    rw [if_pos (by omega : 2 * 0 < d.natAbs)]
  have h6 : format6 ⟨n * d, d⟩ = intStr n ++ ".000000" := by
    unfold format6
    dsimp only
    rw [hscaled, Nat.mul_div_cancel _ (by norm_num : (0:ℕ) < 1000000), Nat.mul_mod_left,
      hsignEq,
      show String.mk (padSix (natChars (0 + 1) 0)) = "000000" from rfl,
      show ((if n < 0 then ("-" : String) else "") ++ natStr n.natAbs) = intStr n from rfl,
      String.append_assoc,
      show (("." : String) ++ "000000") = ".000000" from rfl]
  unfold formatPyFloat
  rw [h6, rstrip_zeros_append, rstrip_dot_append _ (intStr_getLast_ne_dot n)]

/-- C10 amended witness: the value 100 (as the float `(100·1)/1`) satisfies
the hypotheses and renders as `"100"` = `intStr 100`. -/
theorem float_formatting_keeps_integer_zeros_witness :
    ((0 : ℤ) < 1 ∧ (100 : ℤ) ≠ 0 ∧ (10 : ℤ) ∣ 100) ∧
    formatPyFloat ⟨100 * 1, 1⟩ = intStr 100 := by
  refine ⟨⟨by decide, by decide, by decide⟩, ?_⟩
  exact float_formatting_keeps_integer_zeros 100 1 (by decide) (by decide) (by decide)

end AgenticFlow
